import Mathlib

/-!
# RecursiveScanDirectoryTask

A shallow embedding of `src/library/scanner/recursivescandirectorytask.cpp`
(the constructor and `run()`), together with the properties of the directory
scan that follow from it.

Qt strings are `String`, `uint`/`int` are `Nat`/`Int` with the 32 bit
conversion made explicit, `QLinkedList`/`QStringList` are `List`.
The filesystem, the string hash `qHash` and the `ScannerGlobal` ledger are
not part of the translated file; they appear as parameters.
-/

namespace Mixxx

/-- Opaque capability (`SecurityTokenPointer`) handed from a task to the tasks it creates. -/
abbrev SecurityTokenPointer := Nat

/-- What `QDirIterator` yields for one entry: `it.next()` is `filePath`,
`it.fileInfo()` gives `fileName` and `isFile`. -/
structure QFileInfo where
  filePath : String
  fileName : String
  isFile : Bool
deriving DecidableEq

/-- The filesystem as `run()` observes it through Qt:
`entries dir` is what `QDirIterator` over `QDir(dir)` yields under the filter
`Dirs | Files | NoDotAndDotDot`, in iteration order, and `canonicalPath p` is
`QDir(p).canonicalPath()`. -/
structure FileSystem where
  entries : String → List QFileInfo
  canonicalPath : String → String

/-- Modelled from the spec: `ScannerGlobal` (class declared in
`library/scanner/scannerglobal.h`, which is not among the sources).  It holds
the set of canonical paths already claimed in this scan session, the
cancellation flag, the blacklist predicate, the lookup of the fingerprint
stored by the previous scan (an `int`, with `-1` when there is none, as
`run()` tests it), and the two file name patterns (`true` stands for
`indexIn(fileName) != -1`). -/
structure ScannerGlobal where
  directoriesScanned : List String
  shouldCancel : Bool
  directoryBlacklisted : String → Bool
  directoryHashInDatabase : String → Int
  supportedExtensionsRegex : String → Bool
  supportedCoverExtensionsRegex : String → Bool

/-- Modelled from the spec: `ScannerGlobal::isDirectoryScanned`, membership
in the visited set. -/
def ScannerGlobal.isDirectoryScanned (g : ScannerGlobal) (canonicalPath : String) : Bool :=
  decide (canonicalPath ∈ g.directoriesScanned)

/-- Modelled from the spec: `ScannerGlobal::setDirectoryScanned`, the
idempotent `markVisited`: records the path, and does nothing when it is
already present. -/
def ScannerGlobal.setDirectoryScanned (g : ScannerGlobal) (canonicalPath : String) :
    ScannerGlobal :=
  if canonicalPath ∈ g.directoriesScanned then g
  else { g with directoriesScanned := g.directoriesScanned ++ [canonicalPath] }

/-- A `RecursiveScanDirectoryTask` object: its members `m_dir` and `m_pToken`. -/
structure RecursiveScanDirectoryTask where
  m_dir : String
  m_pToken : SecurityTokenPointer
deriving DecidableEq

/-- What `LibraryScanner::queueTask` receives from `run()`. -/
inductive ScannerTask where
  | importFiles (dirPath : String) (newHash : Int) (prevHashExists : Bool)
      (filesToImport : List QFileInfo) (possibleCovers : List QFileInfo)
      (pToken : SecurityTokenPointer)
  | recursiveScanDirectory (task : RecursiveScanDirectoryTask)
deriving DecidableEq

/-- The signals `run()` emits. -/
inductive Signal where
  | directoryHashed (dirPath : String) (newDirectory : Bool) (hash : Int)
  | directoryUnchanged (dirPath : String)
deriving DecidableEq

/-- The conversion `uint -> int` of `int newHash = qHash(...)` on 32 bit integers. -/
def uintToInt (u : Nat) : Int :=
  if u % 2 ^ 32 < 2 ^ 31 then (u % 2 ^ 32 : Nat) else ((u % 2 ^ 32 : Nat) : Int) - 2 ^ 32

/-- The constructor: stores `dir` and the token and marks the canonical path
of `dir` as scanned. -/
def RecursiveScanDirectoryTask.construct (fs : FileSystem) (g : ScannerGlobal)
    (dir : String) (pToken : SecurityTokenPointer) :
    RecursiveScanDirectoryTask × ScannerGlobal :=
  ({ m_dir := dir, m_pToken := pToken }, g.setDirectoryScanned (fs.canonicalPath dir))

/-- The four lists `run()` fills while it iterates over the directory. -/
structure ScanLists where
  filesToImport : List QFileInfo
  possibleCovers : List QFileInfo
  dirsToScan : List String
  newHashStr : List String
deriving DecidableEq

/-- The lists before the first iteration. -/
def ScanLists.empty : ScanLists :=
  { filesToImport := [], possibleCovers := [], dirsToScan := [], newHashStr := [] }

/-- One iteration of the `while (it.hasNext())` loop of `run()`. -/
def loopBody (fs : FileSystem) (g : ScannerGlobal) (st : ScanLists)
    (currentFileInfo : QFileInfo) : ScanLists :=
  let currentFile := currentFileInfo.filePath
  if currentFileInfo.isFile then
    let fileName := currentFileInfo.fileName
    if g.supportedExtensionsRegex fileName then
      { st with
        newHashStr := st.newHashStr ++ [currentFile]
        filesToImport := st.filesToImport ++ [currentFileInfo] }
    else if g.supportedCoverExtensionsRegex fileName then
      { st with possibleCovers := st.possibleCovers ++ [currentFileInfo] }
    else st
  else
    if g.directoryBlacklisted currentFile then st
    else
      let canonicalDirPath := fs.canonicalPath currentFile
      if g.isDirectoryScanned canonicalDirPath then st
      else { st with dirsToScan := st.dirsToScan ++ [currentFile] }

/-- The whole `while` loop over the entries the iterator yields. -/
def scanLoop (fs : FileSystem) (g : ScannerGlobal) (entries : List QFileInfo) : ScanLists :=
  entries.foldl (loopBody fs g) ScanLists.empty

/-- The `foreach (const QDir& nextDir, dirsToScan)` loop: each child task is
constructed (which marks its canonical path) and queued. -/
def queueChildren (fs : FileSystem) (pToken : SecurityTokenPointer) :
    List String → ScannerGlobal → List ScannerTask → ScannerGlobal × List ScannerTask
  | [], g, queued => (g, queued)
  | nextDir :: rest, g, queued =>
    let (task, g') := RecursiveScanDirectoryTask.construct fs g nextDir pToken
    queueChildren fs pToken rest g' (queued ++ [ScannerTask.recursiveScanDirectory task])

/-- Everything one call of `run()` leaves behind: the ledger, the tasks handed
to `queueTask` in order, the signals emitted in order, and the value given to
`setSuccess`. -/
structure RunResult where
  scannerGlobal : ScannerGlobal
  queued : List ScannerTask
  emitted : List Signal
  success : Bool

/-- The fingerprint `run()` computes from the list `newHashStr`. -/
def newHashOf (qHash : String → Nat) (newHashStr : List String) : Int :=
  uintToInt (qHash (String.join newHashStr))

/-- The statement `if (prevHash != newHash) { ... } else { ... }` of `run()`:
the task it queues and the signal it emits. -/
def compareHashes (dirPath : String) (prevHash newHash : Int) (lists : ScanLists)
    (pToken : SecurityTokenPointer) : List ScannerTask × List Signal :=
  let prevHashExists := prevHash != -1
  if prevHash != newHash then
    if !lists.filesToImport.isEmpty then
      ([ScannerTask.importFiles dirPath newHash prevHashExists lists.filesToImport
        lists.possibleCovers pToken], [])
    else
      ([], [Signal.directoryHashed dirPath (!prevHashExists) newHash])
  else
    ([], [Signal.directoryUnchanged dirPath])

/-- The method `RecursiveScanDirectoryTask::run`. -/
def RecursiveScanDirectoryTask.run (fs : FileSystem) (qHash : String → Nat)
    (g : ScannerGlobal) (t : RecursiveScanDirectoryTask) : RunResult :=
  if g.shouldCancel then
    { scannerGlobal := g, queued := [], emitted := [], success := false }
  else
    let lists := scanLoop fs g (fs.entries t.m_dir)
    let newHash := newHashOf qHash lists.newHashStr
    let dirPath := t.m_dir
    let prevHash := g.directoryHashInDatabase dirPath
    let (queued, emitted) := compareHashes dirPath prevHash newHash lists t.m_pToken
    let (g', queued') := queueChildren fs t.m_pToken lists.dirsToScan g queued
    { scannerGlobal := g', queued := queued', emitted := emitted, success := true }

/-! ## Reading the result of a run -/

/-- The child scan tasks among the queued tasks, in queueing order. -/
def childTasks : List ScannerTask → List RecursiveScanDirectoryTask
  | [] => []
  | ScannerTask.recursiveScanDirectory t :: rest => t :: childTasks rest
  | ScannerTask.importFiles _ _ _ _ _ _ :: rest => childTasks rest

/-- The import tasks among the queued tasks, in queueing order. -/
def importTasks : List ScannerTask → List ScannerTask
  | [] => []
  | ScannerTask.recursiveScanDirectory _ :: rest => importTasks rest
  | ScannerTask.importFiles d h p f c k :: rest =>
    ScannerTask.importFiles d h p f c k :: importTasks rest

/-- The `directoryHashed` signals among the emitted signals. -/
def hashedSignals : List Signal → List Signal
  | [] => []
  | Signal.directoryHashed d n h :: rest => Signal.directoryHashed d n h :: hashedSignals rest
  | Signal.directoryUnchanged _ :: rest => hashedSignals rest

/-- The `directoryUnchanged` signals among the emitted signals. -/
def unchangedSignals : List Signal → List Signal
  | [] => []
  | Signal.directoryHashed _ _ _ :: rest => unchangedSignals rest
  | Signal.directoryUnchanged d :: rest => Signal.directoryUnchanged d :: unchangedSignals rest

/-! ## The classification of entries in the words of the specification -/

/-- A file entry whose name matches the importable pattern. -/
def isImportCandidate (g : ScannerGlobal) (e : QFileInfo) : Bool :=
  e.isFile && g.supportedExtensionsRegex e.fileName

/-- A file entry whose name matches the cover-art pattern and not the
importable pattern. -/
def isCoverCandidate (g : ScannerGlobal) (e : QFileInfo) : Bool :=
  e.isFile && (g.supportedCoverExtensionsRegex e.fileName &&
    !g.supportedExtensionsRegex e.fileName)

/-- A non-file entry that is not blacklisted and whose canonical path is not
in the visited set. -/
def isChildDirectory (fs : FileSystem) (g : ScannerGlobal) (e : QFileInfo) : Bool :=
  !e.isFile && (!g.directoryBlacklisted e.filePath &&
    !g.isDirectoryScanned (fs.canonicalPath e.filePath))

/-- The ordered sequence of importable file paths of an enumeration. -/
def importablePaths (g : ScannerGlobal) (entries : List QFileInfo) : List String :=
  (entries.filter (isImportCandidate g)).map QFileInfo.filePath

/-- The visited set after claiming the canonical paths of `dirs` one after the other. -/
def markAll (fs : FileSystem) : List String → ScannerGlobal → ScannerGlobal
  | [], g => g
  | d :: rest, g => markAll fs rest (g.setDirectoryScanned (fs.canonicalPath d))

/-! ## Concrete inputs -/

/-- A 32 bit polynomial string hash, `h = 31 * h + c` over the characters:
one function that can stand for `qHash`. -/
def polyHash31 (s : String) : Nat :=
  s.toList.foldl (fun h c => (31 * h + c.toNat) % 2 ^ 32) 0

/-- The name ends in the given extension. -/
def hasExtension (ext : String) (fileName : String) : Bool :=
  ext.toList.isSuffixOf fileName.toList

/-- A small tree: `/music` holds two tracks, a cover, a text file, the
sub-directory `covers`, the sub-directory `skip` and the link `loop` that
points back to `/music`; `/music/covers` holds one cover. -/
def exampleFs : FileSystem where
  entries := fun p =>
    if p = "/music" then
      [{ filePath := "/music/a.mp3", fileName := "a.mp3", isFile := true },
       { filePath := "/music/b.mp3", fileName := "b.mp3", isFile := true },
       { filePath := "/music/front.jpg", fileName := "front.jpg", isFile := true },
       { filePath := "/music/notes.txt", fileName := "notes.txt", isFile := true },
       { filePath := "/music/covers", fileName := "covers", isFile := false },
       { filePath := "/music/skip", fileName := "skip", isFile := false },
       { filePath := "/music/loop", fileName := "loop", isFile := false }]
    else if p = "/music/covers" then
      [{ filePath := "/music/covers/front.jpg", fileName := "front.jpg", isFile := true }]
    else []
  canonicalPath := fun p => if p = "/music/loop" then "/music" else p

/-- The ledger of a first scan of `exampleFs`, after the root task for
`/music` has been constructed: nothing stored, `/music/skip` blacklisted. -/
def exampleGlobal : ScannerGlobal where
  directoriesScanned := ["/music"]
  shouldCancel := false
  directoryBlacklisted := fun p => p == "/music/skip"
  directoryHashInDatabase := fun _ => -1
  supportedExtensionsRegex := hasExtension ".mp3"
  supportedCoverExtensionsRegex := hasExtension ".jpg"

/-- The same ledger once cancellation has been requested. -/
def exampleCancelled : ScannerGlobal :=
  { exampleGlobal with shouldCancel := true }

/-- The root task of the example. -/
def exampleRoot : RecursiveScanDirectoryTask :=
  { m_dir := "/music", m_pToken := 7 }

/-- The tree at a later scan: the tracks of `/music` are the same, the other
entries have changed. -/
def exampleFsLater : FileSystem where
  entries := fun p =>
    if p = "/music" then
      [{ filePath := "/music/a.mp3", fileName := "a.mp3", isFile := true },
       { filePath := "/music/back.jpg", fileName := "back.jpg", isFile := true },
       { filePath := "/music/b.mp3", fileName := "b.mp3", isFile := true },
       { filePath := "/music/new", fileName := "new", isFile := false }]
    else []
  canonicalPath := fun p => p

/-- The ledger of the later scan: the fingerprints of the first scan are stored. -/
def exampleSecondPass : ScannerGlobal :=
  { exampleGlobal with
    directoryHashInDatabase := fun p =>
      if p = "/music" then -976570283 else if p = "/music/covers" then 0 else -1 }

/-- A directory with one track whose path hashes, under `polyHash31`, to
`0xFFFFFFFF`, which is `-1` once stored in an `int`. -/
def sentinelFs : FileSystem where
  entries := fun p =>
    if p = "/m" then
      [{ filePath := "/m/aizvkicm.mp3", fileName := "aizvkicm.mp3", isFile := true }]
    else []
  canonicalPath := fun p => p

/-- The ledger of a first scan of `/m`: no fingerprint stored for any directory. -/
def sentinelGlobal : ScannerGlobal where
  directoriesScanned := ["/m"]
  shouldCancel := false
  directoryBlacklisted := fun _ => false
  directoryHashInDatabase := fun _ => -1
  supportedExtensionsRegex := hasExtension ".mp3"
  supportedCoverExtensionsRegex := hasExtension ".jpg"

/-- The task for the directory `/m`. -/
def taskM : RecursiveScanDirectoryTask :=
  { m_dir := "/m", m_pToken := 7 }

/-- The directory `/m` after its only track `Aa.mp3` was renamed to `BB.mp3`. -/
def renamedFs : FileSystem where
  entries := fun p =>
    if p = "/m" then
      [{ filePath := "/m/BB.mp3", fileName := "BB.mp3", isFile := true }]
    else []
  canonicalPath := fun p => p

/-- The ledger in which the fingerprint stored for `/m` was computed from the
sequence `["/m/Aa.mp3"]`. -/
def renamedGlobal : ScannerGlobal :=
  { sentinelGlobal with
    directoryHashInDatabase := fun p =>
      if p = "/m" then newHashOf polyHash31 ["/m/Aa.mp3"] else -1 }

/-- The tree of `exampleFs` after `b.mp3` was deleted from `/music`. -/
def exampleFsDeleted : FileSystem where
  entries := fun p =>
    if p = "/music" then
      [{ filePath := "/music/a.mp3", fileName := "a.mp3", isFile := true },
       { filePath := "/music/front.jpg", fileName := "front.jpg", isFile := true }]
    else []
  canonicalPath := fun p => p

/-- The directory `/m` holds the blacklisted entry `/m/bl` and the entry
`/m/ok`; both resolve to the directory `/t`. -/
def aliasFs : FileSystem where
  entries := fun p =>
    if p = "/m" then
      [{ filePath := "/m/bl", fileName := "bl", isFile := false },
       { filePath := "/m/ok", fileName := "ok", isFile := false }]
    else []
  canonicalPath := fun p => if p = "/m" then "/m" else "/t"

/-- The ledger for `aliasFs`: `/m/bl` is blacklisted, `/m` is claimed. -/
def aliasGlobal : ScannerGlobal :=
  { sentinelGlobal with directoryBlacklisted := fun p => p == "/m/bl" }

/-- The filesystem `exampleFs` with the blacklisted entry `/music/skip` removed
from the enumeration of `/music`. -/
def exampleFsNoSkip : FileSystem where
  entries := fun p =>
    if p = "/music" then
      [{ filePath := "/music/a.mp3", fileName := "a.mp3", isFile := true },
       { filePath := "/music/b.mp3", fileName := "b.mp3", isFile := true },
       { filePath := "/music/front.jpg", fileName := "front.jpg", isFile := true },
       { filePath := "/music/notes.txt", fileName := "notes.txt", isFile := true },
       { filePath := "/music/covers", fileName := "covers", isFile := false },
       { filePath := "/music/loop", fileName := "loop", isFile := false }]
    else exampleFs.entries p
  canonicalPath := exampleFs.canonicalPath

/-! ## The scan session -/

/-- Modelled from the spec: the work queue of the scan session
(`LibraryScanner::queueTask` and the pool that executes the tasks are not among
the sources).  The session holds the ledger, the queued tasks in the order of
queueing, the signals emitted so far and the number of
`RecursiveScanDirectoryTask` objects constructed so far. -/
structure ScanSession where
  scannerGlobal : ScannerGlobal
  queue : List ScannerTask
  emitted : List Signal
  created : Nat

/-- The caller seeds the session with one task for the scan root; constructing
it marks the canonical path of the root. -/
def ScanSession.start (fs : FileSystem) (g : ScannerGlobal) (root : String)
    (pToken : SecurityTokenPointer) : ScanSession :=
  let (task, g') := RecursiveScanDirectoryTask.construct fs g root pToken
  { scannerGlobal := g', queue := [ScannerTask.recursiveScanDirectory task], emitted := [],
    created := 1 }

/-- Modelled from the spec: executing the task at the head of the queue.  A
scan task is run by `run()` and what it queues goes to the end of the queue;
an import task is handed to the import collaborator, which queues no scan task
and does not touch the ledger. -/
def ScanSession.step (fs : FileSystem) (qHash : String → Nat) (s : ScanSession) : ScanSession :=
  match s.queue with
  | [] => s
  | ScannerTask.importFiles _ _ _ _ _ _ :: rest => { s with queue := rest }
  | ScannerTask.recursiveScanDirectory t :: rest =>
    { scannerGlobal := (t.run fs qHash s.scannerGlobal).scannerGlobal
      queue := rest ++ (t.run fs qHash s.scannerGlobal).queued
      emitted := s.emitted ++ (t.run fs qHash s.scannerGlobal).emitted
      created := s.created + (childTasks (t.run fs qHash s.scannerGlobal).queued).length }

/-- Executing the queued tasks one at a time until the queue is empty, with at
most `fuel` executions; `none` when the fuel does not suffice. -/
def ScanSession.runAll (fs : FileSystem) (qHash : String → Nat) :
    Nat → ScanSession → Option ScanSession
  | 0, s => if s.queue.isEmpty then some s else none
  | fuel + 1, s =>
    if s.queue.isEmpty then some s else ScanSession.runAll fs qHash fuel (s.step fs qHash)

/-- The number of paths of `univ` that are not in the visited set. -/
def unvisitedCount : List String → ScannerGlobal → Nat
  | [], _ => 0
  | c :: rest, g => (if g.isDirectoryScanned c then 0 else 1) + unvisitedCount rest g

/-- Weight of the queue: two for a scan task, one for an import task. -/
def queueWeight : List ScannerTask → Nat
  | [] => 0
  | ScannerTask.importFiles _ _ _ _ _ _ :: rest => 1 + queueWeight rest
  | ScannerTask.recursiveScanDirectory _ :: rest => 2 + queueWeight rest

/-- The quantity that decreases with every executed task, for a graph with
canonical directories `univ` and at most `B` entries per directory. -/
def potential (univ : List String) (B : Nat) (s : ScanSession) : Nat :=
  unvisitedCount univ s.scannerGlobal * (2 * B + 2) + queueWeight s.queue

/-- The ledger of `exampleGlobal` before the root task is constructed. -/
def exampleFresh : ScannerGlobal :=
  { exampleGlobal with directoriesScanned := [] }

/-- The entries of `/music` in `exampleFs` that come before `skip`. -/
def entriesBeforeSkip : List QFileInfo :=
  [{ filePath := "/music/a.mp3", fileName := "a.mp3", isFile := true },
   { filePath := "/music/b.mp3", fileName := "b.mp3", isFile := true },
   { filePath := "/music/front.jpg", fileName := "front.jpg", isFile := true },
   { filePath := "/music/notes.txt", fileName := "notes.txt", isFile := true },
   { filePath := "/music/covers", fileName := "covers", isFile := false }]

/-- The entry `skip` of `/music` in `exampleFs`. -/
def skipEntry : QFileInfo :=
  { filePath := "/music/skip", fileName := "skip", isFile := false }

/-- The entries of `/music` in `exampleFs` that come after `skip`. -/
def entriesAfterSkip : List QFileInfo :=
  [{ filePath := "/music/loop", fileName := "loop", isFile := false }]

/-- The directory `/m` holds two links `l1` and `l2` to the same directory `/t`,
which is empty. -/
def twoLinksFs : FileSystem where
  entries := fun p =>
    if p = "/m" then
      [{ filePath := "/m/l1", fileName := "l1", isFile := false },
       { filePath := "/m/l2", fileName := "l2", isFile := false }]
    else []
  canonicalPath := fun p => if p = "/m" then "/m" else "/t"

/-- The ledger of `sentinelGlobal` before the root task is constructed. -/
def sentinelFresh : ScannerGlobal :=
  { sentinelGlobal with directoriesScanned := [] }

/-- The ledger of a scan of `/m` for which the fingerprint `5` is stored. -/
def sentinelStored : ScannerGlobal :=
  { sentinelGlobal with directoryHashInDatabase := fun p => if p = "/m" then 5 else -1 }

/-- The directory `/m` of `sentinelFs` after the track `b.mp3` was added. -/
def sentinelLaterFs : FileSystem where
  entries := fun p =>
    if p = "/m" then
      [{ filePath := "/m/aizvkicm.mp3", fileName := "aizvkicm.mp3", isFile := true },
       { filePath := "/m/b.mp3", fileName := "b.mp3", isFile := true }]
    else []
  canonicalPath := fun p => p

/-- The ledger of the next scan: the record of `/m` holds the fingerprint that
the scan of `sentinelFs` handed over with its task for the files of `/m`. -/
def sentinelLater : ScannerGlobal :=
  { sentinelGlobal with
    directoryHashInDatabase := fun p =>
      if p = "/m" then newHashOf polyHash31 ["/m/aizvkicm.mp3"] else -1 }

/-! ## Theorems -/

theorem foldl_loopBody (fs : FileSystem) (g : ScannerGlobal) (entries : List QFileInfo) :
    ∀ st : ScanLists, entries.foldl (loopBody fs g) st =
      { filesToImport := st.filesToImport ++ entries.filter (isImportCandidate g)
        possibleCovers := st.possibleCovers ++ entries.filter (isCoverCandidate g)
        dirsToScan := st.dirsToScan ++
          (entries.filter (isChildDirectory fs g)).map QFileInfo.filePath
        newHashStr := st.newHashStr ++ importablePaths g entries } := by
  induction entries with
  | nil => intro st; simp [importablePaths]
  | cons e rest ih =>
    intro st
    rw [List.foldl_cons, ih]
    cases hf : e.isFile <;> cases hs : g.supportedExtensionsRegex e.fileName <;>
      cases hc : g.supportedCoverExtensionsRegex e.fileName <;>
      cases hb : g.directoryBlacklisted e.filePath <;>
      cases hv : g.isDirectoryScanned (fs.canonicalPath e.filePath) <;>
      simp [loopBody, importablePaths, isImportCandidate, isCoverCandidate,
        isChildDirectory, hf, hs, hc, hb, hv]

theorem scanLoop_eq (fs : FileSystem) (g : ScannerGlobal) (entries : List QFileInfo) :
    scanLoop fs g entries =
      { filesToImport := entries.filter (isImportCandidate g)
        possibleCovers := entries.filter (isCoverCandidate g)
        dirsToScan := (entries.filter (isChildDirectory fs g)).map QFileInfo.filePath
        newHashStr := importablePaths g entries } := by
  simp [scanLoop, foldl_loopBody, ScanLists.empty]

theorem queueChildren_eq (fs : FileSystem) (k : SecurityTokenPointer) (dirs : List String) :
    ∀ (g : ScannerGlobal) (queued : List ScannerTask),
      queueChildren fs k dirs g queued =
        (markAll fs dirs g, queued ++ dirs.map
          (fun d => ScannerTask.recursiveScanDirectory { m_dir := d, m_pToken := k })) := by
  induction dirs with
  | nil => intro g queued; simp [queueChildren, markAll]
  | cons d rest ih =>
    intro g queued
    simp [queueChildren, markAll, RecursiveScanDirectoryTask.construct, ih]

theorem childTasks_append (a b : List ScannerTask) :
    childTasks (a ++ b) = childTasks a ++ childTasks b := by
  induction a with
  | nil => rfl
  | cons x rest ih => cases x <;> simp [childTasks, ih]

theorem importTasks_append (a b : List ScannerTask) :
    importTasks (a ++ b) = importTasks a ++ importTasks b := by
  induction a with
  | nil => rfl
  | cons x rest ih => cases x <;> simp [importTasks, ih]

theorem childTasks_map (k : SecurityTokenPointer) (dirs : List String) :
    childTasks (dirs.map
      (fun d => ScannerTask.recursiveScanDirectory { m_dir := d, m_pToken := k })) =
      dirs.map (fun d => { m_dir := d, m_pToken := k }) := by
  induction dirs with
  | nil => rfl
  | cons d rest ih => simp [childTasks, ih]

theorem importTasks_map (k : SecurityTokenPointer) (dirs : List String) :
    importTasks (dirs.map
      (fun d => ScannerTask.recursiveScanDirectory { m_dir := d, m_pToken := k })) = [] := by
  induction dirs with
  | nil => rfl
  | cons d rest ih => simp [importTasks, ih]

theorem run_of_not_cancelled (fs : FileSystem) (qHash : String → Nat) (g : ScannerGlobal)
    (t : RecursiveScanDirectoryTask) (h : g.shouldCancel = false) :
    t.run fs qHash g =
      { scannerGlobal := markAll fs (scanLoop fs g (fs.entries t.m_dir)).dirsToScan g
        queued :=
          (compareHashes t.m_dir (g.directoryHashInDatabase t.m_dir)
            (newHashOf qHash (scanLoop fs g (fs.entries t.m_dir)).newHashStr)
            (scanLoop fs g (fs.entries t.m_dir)) t.m_pToken).1 ++
          (scanLoop fs g (fs.entries t.m_dir)).dirsToScan.map
            (fun d => ScannerTask.recursiveScanDirectory { m_dir := d, m_pToken := t.m_pToken })
        emitted :=
          (compareHashes t.m_dir (g.directoryHashInDatabase t.m_dir)
            (newHashOf qHash (scanLoop fs g (fs.entries t.m_dir)).newHashStr)
            (scanLoop fs g (fs.entries t.m_dir)) t.m_pToken).2
        success := true } := by
  simp [RecursiveScanDirectoryTask.run, h, queueChildren_eq]

theorem compareHashes_counts (d : String) (prev new : Int) (lists : ScanLists)
    (k : SecurityTokenPointer) :
    (importTasks (compareHashes d prev new lists k).1).length +
      (hashedSignals (compareHashes d prev new lists k).2).length +
      (unchangedSignals (compareHashes d prev new lists k).2).length = 1 := by
  unfold compareHashes
  by_cases h1 : prev = new <;> cases h2 : lists.filesToImport.isEmpty <;>
    simp [h1, h2, importTasks, hashedSignals, unchangedSignals]

theorem compareHashes_children (d : String) (prev new : Int) (lists : ScanLists)
    (k : SecurityTokenPointer) :
    childTasks (compareHashes d prev new lists k).1 = [] := by
  unfold compareHashes
  by_cases h1 : prev = new <;> cases h2 : lists.filesToImport.isEmpty <;>
    simp [h1, h2, childTasks]

/-- C5: when `shouldCancel()` holds at the start of `run()`, the run sets
success to false, queues nothing (no import task, no child scan task), emits
no signal and leaves the ledger, hence the visited set, as it was. -/
theorem run_cancelled (fs : FileSystem) (qHash : String → Nat) (g : ScannerGlobal)
    (t : RecursiveScanDirectoryTask) (h : g.shouldCancel = true) :
    (t.run fs qHash g).success = false ∧ (t.run fs qHash g).queued = [] ∧
      (t.run fs qHash g).emitted = [] ∧ (t.run fs qHash g).scannerGlobal = g ∧
      (t.run fs qHash g).scannerGlobal.directoriesScanned = g.directoriesScanned := by
  simp [RecursiveScanDirectoryTask.run, h]

theorem run_cancelled_witness :
    exampleCancelled.shouldCancel = true ∧
      (exampleRoot.run exampleFs polyHash31 exampleCancelled).success = false ∧
      (exampleRoot.run exampleFs polyHash31 exampleCancelled).queued = [] ∧
      (exampleRoot.run exampleFs polyHash31 exampleCancelled).emitted = [] ∧
      (exampleRoot.run exampleFs polyHash31 exampleCancelled).scannerGlobal = exampleCancelled ∧
      (exampleRoot.run exampleFs polyHash31 exampleCancelled).scannerGlobal.directoriesScanned =
        exampleCancelled.directoriesScanned :=
  ⟨rfl, run_cancelled exampleFs polyHash31 exampleCancelled exampleRoot rfl⟩

/-- C9: a run that is not cancelled at entry reports success and produces
exactly one outcome for its own directory `m_dir`: either one queued import
task for `m_dir` and no signal, or no import task and the single signal
`directoryHashed` for `m_dir`, or no import task and the single signal
`directoryUnchanged` for `m_dir`; which of the three is fixed by the comparison
of the stored and the computed fingerprint and by whether an importable file
was enumerated.  The numbers of import tasks, `directoryHashed` signals and
`directoryUnchanged` signals add up to one. -/
theorem run_exactly_one_outcome (fs : FileSystem) (qHash : String → Nat) (g : ScannerGlobal)
    (t : RecursiveScanDirectoryTask) (h : g.shouldCancel = false) :
    (t.run fs qHash g).success = true ∧
      (importTasks (t.run fs qHash g).queued).length +
        (hashedSignals (t.run fs qHash g).emitted).length +
        (unchangedSignals (t.run fs qHash g).emitted).length = 1 ∧
      ((g.directoryHashInDatabase t.m_dir ≠
            newHashOf qHash (importablePaths g (fs.entries t.m_dir)) ∧
          (fs.entries t.m_dir).filter (isImportCandidate g) ≠ [] ∧
          importTasks (t.run fs qHash g).queued =
            [ScannerTask.importFiles t.m_dir
              (newHashOf qHash (importablePaths g (fs.entries t.m_dir)))
              (g.directoryHashInDatabase t.m_dir != -1)
              ((fs.entries t.m_dir).filter (isImportCandidate g))
              ((fs.entries t.m_dir).filter (isCoverCandidate g)) t.m_pToken] ∧
          (t.run fs qHash g).emitted = []) ∨
        (g.directoryHashInDatabase t.m_dir ≠
            newHashOf qHash (importablePaths g (fs.entries t.m_dir)) ∧
          (fs.entries t.m_dir).filter (isImportCandidate g) = [] ∧
          importTasks (t.run fs qHash g).queued = [] ∧
          (t.run fs qHash g).emitted =
            [Signal.directoryHashed t.m_dir (!(g.directoryHashInDatabase t.m_dir != -1))
              (newHashOf qHash (importablePaths g (fs.entries t.m_dir)))]) ∨
        (g.directoryHashInDatabase t.m_dir =
            newHashOf qHash (importablePaths g (fs.entries t.m_dir)) ∧
          importTasks (t.run fs qHash g).queued = [] ∧
          (t.run fs qHash g).emitted = [Signal.directoryUnchanged t.m_dir])) := by
  rw [run_of_not_cancelled fs qHash g t h]
  refine ⟨rfl, ?_, ?_⟩
  · simp only [importTasks_append, importTasks_map, List.append_nil]
    exact compareHashes_counts _ _ _ _ _
  · simp only [importTasks_append, importTasks_map, List.append_nil, scanLoop_eq]
    by_cases h1 : g.directoryHashInDatabase t.m_dir =
        newHashOf qHash (importablePaths g (fs.entries t.m_dir))
    · refine Or.inr (Or.inr ⟨h1, ?_, ?_⟩) <;> simp [compareHashes, h1, importTasks]
    · cases hl : (fs.entries t.m_dir).filter (isImportCandidate g) with
      | nil =>
        refine Or.inr (Or.inl ⟨h1, rfl, ?_, ?_⟩) <;>
          simp [compareHashes, h1, hl, importTasks]
      | cons a l =>
        refine Or.inl ⟨h1, by simp, ?_, ?_⟩ <;>
          simp [compareHashes, h1, hl, importTasks]

theorem run_exactly_one_outcome_witness :
    exampleGlobal.shouldCancel = false ∧
      (exampleRoot.run exampleFs polyHash31 exampleGlobal).success = true ∧
      (importTasks (exampleRoot.run exampleFs polyHash31 exampleGlobal).queued).length +
        (hashedSignals (exampleRoot.run exampleFs polyHash31 exampleGlobal).emitted).length +
        (unchangedSignals (exampleRoot.run exampleFs polyHash31 exampleGlobal).emitted).length
          = 1 ∧
      ((exampleGlobal.directoryHashInDatabase exampleRoot.m_dir ≠
            newHashOf polyHash31
              (importablePaths exampleGlobal (exampleFs.entries exampleRoot.m_dir)) ∧
          (exampleFs.entries exampleRoot.m_dir).filter (isImportCandidate exampleGlobal) ≠ [] ∧
          importTasks (exampleRoot.run exampleFs polyHash31 exampleGlobal).queued =
            [ScannerTask.importFiles exampleRoot.m_dir
              (newHashOf polyHash31
                (importablePaths exampleGlobal (exampleFs.entries exampleRoot.m_dir)))
              (exampleGlobal.directoryHashInDatabase exampleRoot.m_dir != -1)
              ((exampleFs.entries exampleRoot.m_dir).filter (isImportCandidate exampleGlobal))
              ((exampleFs.entries exampleRoot.m_dir).filter (isCoverCandidate exampleGlobal))
              exampleRoot.m_pToken] ∧
          (exampleRoot.run exampleFs polyHash31 exampleGlobal).emitted = []) ∨
        (exampleGlobal.directoryHashInDatabase exampleRoot.m_dir ≠
            newHashOf polyHash31
              (importablePaths exampleGlobal (exampleFs.entries exampleRoot.m_dir)) ∧
          (exampleFs.entries exampleRoot.m_dir).filter (isImportCandidate exampleGlobal) = [] ∧
          importTasks (exampleRoot.run exampleFs polyHash31 exampleGlobal).queued = [] ∧
          (exampleRoot.run exampleFs polyHash31 exampleGlobal).emitted =
            [Signal.directoryHashed exampleRoot.m_dir
              (!(exampleGlobal.directoryHashInDatabase exampleRoot.m_dir != -1))
              (newHashOf polyHash31
                (importablePaths exampleGlobal (exampleFs.entries exampleRoot.m_dir)))]) ∨
        (exampleGlobal.directoryHashInDatabase exampleRoot.m_dir =
            newHashOf polyHash31
              (importablePaths exampleGlobal (exampleFs.entries exampleRoot.m_dir)) ∧
          importTasks (exampleRoot.run exampleFs polyHash31 exampleGlobal).queued = [] ∧
          (exampleRoot.run exampleFs polyHash31 exampleGlobal).emitted =
            [Signal.directoryUnchanged exampleRoot.m_dir])) :=
  ⟨rfl, run_exactly_one_outcome exampleFs polyHash31 exampleGlobal exampleRoot rfl⟩

/-- C8: in a run that is not cancelled the child scan tasks queued are, in
enumeration order, the non-file entries that are not blacklisted and whose
canonical path is not in the visited set, each with the token of the parent;
the list is the same for every stored prior fingerprint and every hash
function, hence for each of the three outcomes of the directory itself. -/
theorem run_children (fs : FileSystem) (qHash : String → Nat) (g : ScannerGlobal)
    (t : RecursiveScanDirectoryTask) (h : g.shouldCancel = false) :
    childTasks (t.run fs qHash g).queued =
        ((fs.entries t.m_dir).filter (isChildDirectory fs g)).map
          (fun e => { m_dir := e.filePath, m_pToken := t.m_pToken }) ∧
      ∀ (qHash' : String → Nat) (db : String → Int),
        childTasks (t.run fs qHash' { g with directoryHashInDatabase := db }).queued =
          childTasks (t.run fs qHash g).queued := by
  have key : ∀ (q : String → Nat) (g₁ : ScannerGlobal), g₁.shouldCancel = false →
      childTasks (t.run fs q g₁).queued =
        ((fs.entries t.m_dir).filter (isChildDirectory fs g₁)).map
          (fun e => { m_dir := e.filePath, m_pToken := t.m_pToken }) := by
    intro q g₁ h₁
    rw [run_of_not_cancelled fs q g₁ t h₁]
    simp only [childTasks_append, compareHashes_children, childTasks_map, List.nil_append]
    rw [scanLoop_eq, List.map_map]
    rfl
  refine ⟨key qHash g h, ?_⟩
  intro q db
  rw [key qHash g h, key q { g with directoryHashInDatabase := db } h]
  rfl

theorem run_children_witness :
    exampleGlobal.shouldCancel = false ∧
      (childTasks (exampleRoot.run exampleFs polyHash31 exampleGlobal).queued =
        ((exampleFs.entries exampleRoot.m_dir).filter
          (isChildDirectory exampleFs exampleGlobal)).map
          (fun e => { m_dir := e.filePath, m_pToken := exampleRoot.m_pToken }) ∧
      ∀ (qHash' : String → Nat) (db : String → Int),
        childTasks (exampleRoot.run exampleFs qHash'
          { exampleGlobal with directoryHashInDatabase := db }).queued =
          childTasks (exampleRoot.run exampleFs polyHash31 exampleGlobal).queued) :=
  ⟨rfl, run_children exampleFs polyHash31 exampleGlobal exampleRoot rfl⟩

theorem mem_compareHashes (dp : String) (prev new : Int) (lists : ScanLists)
    (kp : SecurityTokenPointer) (d : String) (nh : Int) (pe : Bool) (f c : List QFileInfo)
    (k : SecurityTokenPointer)
    (h : ScannerTask.importFiles d nh pe f c k ∈ (compareHashes dp prev new lists kp).1) :
    d = dp ∧ nh = new ∧ pe = (prev != -1) ∧ f = lists.filesToImport ∧
      c = lists.possibleCovers ∧ k = kp ∧ lists.filesToImport ≠ [] ∧ prev ≠ new := by
  unfold compareHashes at h
  by_cases h1 : prev = new
  · simp [h1] at h
  · cases h2 : lists.filesToImport.isEmpty
    · simp [h1, h2] at h
      obtain ⟨rfl, rfl, rfl, rfl, rfl, rfl⟩ := h
      refine ⟨rfl, rfl, rfl, rfl, rfl, rfl, ?_, h1⟩
      intro hnil
      simp [hnil] at h2
    · simp [h1, h2] at h

theorem mem_run_queued_import (fs : FileSystem) (qHash : String → Nat) (g : ScannerGlobal)
    (t : RecursiveScanDirectoryTask) (d : String) (nh : Int) (pe : Bool)
    (f c : List QFileInfo) (k : SecurityTokenPointer)
    (h : ScannerTask.importFiles d nh pe f c k ∈ (t.run fs qHash g).queued) :
    g.shouldCancel = false ∧
      ScannerTask.importFiles d nh pe f c k ∈
        (compareHashes t.m_dir (g.directoryHashInDatabase t.m_dir)
          (newHashOf qHash (scanLoop fs g (fs.entries t.m_dir)).newHashStr)
          (scanLoop fs g (fs.entries t.m_dir)) t.m_pToken).1 := by
  cases hc : g.shouldCancel
  · rw [run_of_not_cancelled fs qHash g t hc] at h
    refine ⟨rfl, ?_⟩
    rcases List.mem_append.mp h with h | h
    · exact h
    · simp at h
  · simp [RecursiveScanDirectoryTask.run, hc] at h

/-- What a queued task for the files of a directory holds: an import task
queued by `run()` carries the directory path, the
fingerprint computed from the importable paths, the flag that is true exactly
when the lookup of the stored fingerprint gives something other than `-1`,
the token of the task, as import candidates exactly the file entries whose name
matches the importable pattern, and as cover-art candidates exactly the file
entries whose name matches the cover-art pattern and not the importable one,
both in enumeration order; no entry is in both lists and the import candidates
are not empty. -/
theorem run_import_task (fs : FileSystem) (qHash : String → Nat) (g : ScannerGlobal)
    (t : RecursiveScanDirectoryTask) (d : String) (nh : Int) (pe : Bool)
    (f c : List QFileInfo) (k : SecurityTokenPointer)
    (h : ScannerTask.importFiles d nh pe f c k ∈ (t.run fs qHash g).queued) :
    d = t.m_dir ∧
      nh = newHashOf qHash (importablePaths g (fs.entries t.m_dir)) ∧
      (pe = true ↔ g.directoryHashInDatabase t.m_dir ≠ -1) ∧
      k = t.m_pToken ∧
      f = (fs.entries t.m_dir).filter (isImportCandidate g) ∧
      c = (fs.entries t.m_dir).filter (isCoverCandidate g) ∧
      (∀ e, e ∈ f → e ∉ c) ∧
      f ≠ [] := by
  obtain ⟨_, hm⟩ := mem_run_queued_import fs qHash g t d nh pe f c k h
  obtain ⟨hd, hnh, hpe, hf, hcv, hk, hne, _⟩ := mem_compareHashes _ _ _ _ _ _ _ _ _ _ _ hm
  rw [scanLoop_eq] at hnh hf hcv hne
  simp only at hnh hf hcv hne
  refine ⟨hd, hnh, ?_, hk, hf, hcv, ?_, hf ▸ hne⟩
  · rw [hpe]; simp
  · intro e he hec
    rw [hf] at he
    rw [hcv] at hec
    have h1 := (List.mem_filter.mp he).2
    have h2 := (List.mem_filter.mp hec).2
    simp [isImportCandidate, isCoverCandidate] at h1 h2
    rw [h1.2] at h2
    simp at h2

theorem run_import_task_witness :
    ScannerTask.importFiles "/music" (-976570283) false
        [{ filePath := "/music/a.mp3", fileName := "a.mp3", isFile := true },
         { filePath := "/music/b.mp3", fileName := "b.mp3", isFile := true }]
        [{ filePath := "/music/front.jpg", fileName := "front.jpg", isFile := true }] 7 ∈
        (exampleRoot.run exampleFs polyHash31 exampleGlobal).queued ∧
      "/music" = exampleRoot.m_dir ∧
      (-976570283 : Int) =
        newHashOf polyHash31 (importablePaths exampleGlobal (exampleFs.entries exampleRoot.m_dir)) ∧
      (false = true ↔ exampleGlobal.directoryHashInDatabase exampleRoot.m_dir ≠ -1) ∧
      7 = exampleRoot.m_pToken ∧
      [{ filePath := "/music/a.mp3", fileName := "a.mp3", isFile := true },
         { filePath := "/music/b.mp3", fileName := "b.mp3", isFile := true }] =
        (exampleFs.entries exampleRoot.m_dir).filter (isImportCandidate exampleGlobal) ∧
      [{ filePath := "/music/front.jpg", fileName := "front.jpg", isFile := true }] =
        (exampleFs.entries exampleRoot.m_dir).filter (isCoverCandidate exampleGlobal) ∧
      (∀ e, e ∈ [{ filePath := "/music/a.mp3", fileName := "a.mp3", isFile := true },
                 ({ filePath := "/music/b.mp3", fileName := "b.mp3", isFile := true } : QFileInfo)] →
        e ∉ [({ filePath := "/music/front.jpg", fileName := "front.jpg", isFile := true } :
          QFileInfo)]) ∧
      [{ filePath := "/music/a.mp3", fileName := "a.mp3", isFile := true },
        ({ filePath := "/music/b.mp3", fileName := "b.mp3", isFile := true } : QFileInfo)] ≠ [] :=
  ⟨by decide, run_import_task exampleFs polyHash31 exampleGlobal exampleRoot _ _ _ _ _ _
    (by decide)⟩

/-- C6: the fingerprint is a function of the ordered sequence of importable
file paths: two enumerations (of any filesystem state and ledger) with equal
sequences of importable file paths have equal fingerprints, whatever else they
contain; and a run (one that gets to compute a fingerprint, that is, is not
cancelled) that finds the stored fingerprint equal to the computed one emits
`directoryUnchanged` and queues no import task. -/
theorem fingerprint_of_importable_paths (fs fs' : FileSystem) (qHash : String → Nat)
    (g g' : ScannerGlobal) (entries : List QFileInfo) (t : RecursiveScanDirectoryTask)
    (hpaths : importablePaths g entries = importablePaths g' (fs'.entries t.m_dir)) :
    newHashOf qHash (scanLoop fs g entries).newHashStr =
        newHashOf qHash (scanLoop fs' g' (fs'.entries t.m_dir)).newHashStr ∧
      (g'.shouldCancel = false →
        g'.directoryHashInDatabase t.m_dir =
          newHashOf qHash (scanLoop fs' g' (fs'.entries t.m_dir)).newHashStr →
        (t.run fs' qHash g').emitted = [Signal.directoryUnchanged t.m_dir] ∧
          importTasks (t.run fs' qHash g').queued = []) := by
  refine ⟨?_, ?_⟩
  · rw [scanLoop_eq, scanLoop_eq]
    simp only [hpaths]
  · intro hrun hprev
    rw [run_of_not_cancelled fs' qHash g' t hrun]
    simp only [importTasks_append, importTasks_map, List.append_nil]
    rw [hprev]
    simp [compareHashes, importTasks]

theorem fingerprint_of_importable_paths_witness :
    importablePaths exampleGlobal (exampleFs.entries "/music") =
        importablePaths exampleSecondPass (exampleFsLater.entries exampleRoot.m_dir) ∧
      newHashOf polyHash31 (scanLoop exampleFs exampleGlobal (exampleFs.entries "/music")).newHashStr =
        newHashOf polyHash31
          (scanLoop exampleFsLater exampleSecondPass
            (exampleFsLater.entries exampleRoot.m_dir)).newHashStr ∧
      exampleSecondPass.shouldCancel = false ∧
      exampleSecondPass.directoryHashInDatabase exampleRoot.m_dir =
        newHashOf polyHash31
          (scanLoop exampleFsLater exampleSecondPass
            (exampleFsLater.entries exampleRoot.m_dir)).newHashStr ∧
      (exampleRoot.run exampleFsLater polyHash31 exampleSecondPass).emitted =
        [Signal.directoryUnchanged exampleRoot.m_dir] ∧
      importTasks (exampleRoot.run exampleFsLater polyHash31 exampleSecondPass).queued = [] :=
  ⟨by decide,
    (fingerprint_of_importable_paths exampleFs exampleFsLater polyHash31 exampleGlobal
      exampleSecondPass (exampleFs.entries "/music") exampleRoot (by decide)).1,
    by decide, by decide,
    (fingerprint_of_importable_paths exampleFs exampleFsLater polyHash31 exampleGlobal
      exampleSecondPass (exampleFs.entries "/music") exampleRoot (by decide)).2
      (by decide) (by decide)⟩

theorem run_of_hash_differs (fs : FileSystem) (qHash : String → Nat) (g : ScannerGlobal)
    (t : RecursiveScanDirectoryTask) (hrun : g.shouldCancel = false)
    (hne : g.directoryHashInDatabase t.m_dir ≠
      newHashOf qHash (importablePaths g (fs.entries t.m_dir))) :
    ((fs.entries t.m_dir).filter (isImportCandidate g) ≠ [] →
        importTasks (t.run fs qHash g).queued =
          [ScannerTask.importFiles t.m_dir
            (newHashOf qHash (importablePaths g (fs.entries t.m_dir)))
            (g.directoryHashInDatabase t.m_dir != -1)
            ((fs.entries t.m_dir).filter (isImportCandidate g))
            ((fs.entries t.m_dir).filter (isCoverCandidate g)) t.m_pToken] ∧
          (t.run fs qHash g).emitted = []) ∧
      ((fs.entries t.m_dir).filter (isImportCandidate g) = [] →
        (t.run fs qHash g).emitted =
          [Signal.directoryHashed t.m_dir (!(g.directoryHashInDatabase t.m_dir != -1))
            (uintToInt (qHash ""))] ∧
          importTasks (t.run fs qHash g).queued = []) ∧
      ∀ d, Signal.directoryUnchanged d ∉ (t.run fs qHash g).emitted := by
  rw [run_of_not_cancelled fs qHash g t hrun]
  simp only [importTasks_append, importTasks_map, List.append_nil, scanLoop_eq]
  refine ⟨?_, ?_, ?_⟩
  · intro hf
    have hf' : ((fs.entries t.m_dir).filter (isImportCandidate g)).isEmpty = false := by
      cases hl : (fs.entries t.m_dir).filter (isImportCandidate g) with
      | nil => exact absurd hl hf
      | cons a l => rfl
    simp [compareHashes, hne, hf', importTasks]
  · intro hf
    have hp : importablePaths g (fs.entries t.m_dir) = [] := by
      simp [importablePaths, hf]
    rw [hp] at hne
    have hne' : g.directoryHashInDatabase t.m_dir ≠ uintToInt (qHash "") := by
      simpa [newHashOf, String.join] using hne
    simp [compareHashes, hne', hf, hp, importTasks, newHashOf, String.join]
  · intro d
    cases hl : ((fs.entries t.m_dir).filter (isImportCandidate g)).isEmpty <;>
      simp [compareHashes, hne, hl]

/-- C3, evaluated: the directory `/m` has no stored fingerprint (the lookup
gives `-1`, so `prevHashExists` is false) and holds one importable file, whose
path hashes to `0xFFFFFFFF`; the computed fingerprint is `-1` as well, the test
`prevHash != newHash` fails, and the run queues no import task and emits
`directoryUnchanged` for a directory that was never scanned. -/
theorem no_record_reported_unchanged :
    sentinelGlobal.shouldCancel = false ∧
      sentinelGlobal.directoryHashInDatabase taskM.m_dir = -1 ∧
      (sentinelFs.entries taskM.m_dir).filter (isImportCandidate sentinelGlobal) ≠ [] ∧
      newHashOf polyHash31 (importablePaths sentinelGlobal (sentinelFs.entries taskM.m_dir)) = -1 ∧
      importTasks (taskM.run sentinelFs polyHash31 sentinelGlobal).queued = [] ∧
      (taskM.run sentinelFs polyHash31 sentinelGlobal).emitted =
        [Signal.directoryUnchanged "/m"] := by
  decide

/-- Away from the value `-1`: in a run that is not cancelled, on a directory
without prior record (the lookup gives `-1`), when the computed fingerprint is
not `-1`: if
an importable file was enumerated exactly one import task is queued, with
`prevHashExists = false`, and nothing is emitted; if none was, `directoryHashed`
is emitted with `newDirectory = true` and the fingerprint of the empty string;
`directoryUnchanged` is not emitted. -/
theorem run_without_prior_record (fs : FileSystem) (qHash : String → Nat) (g : ScannerGlobal)
    (t : RecursiveScanDirectoryTask) (hrun : g.shouldCancel = false)
    (hno : g.directoryHashInDatabase t.m_dir = -1)
    (hne : newHashOf qHash (importablePaths g (fs.entries t.m_dir)) ≠ -1) :
    ((fs.entries t.m_dir).filter (isImportCandidate g) ≠ [] →
        importTasks (t.run fs qHash g).queued =
          [ScannerTask.importFiles t.m_dir
            (newHashOf qHash (importablePaths g (fs.entries t.m_dir))) false
            ((fs.entries t.m_dir).filter (isImportCandidate g))
            ((fs.entries t.m_dir).filter (isCoverCandidate g)) t.m_pToken] ∧
          (t.run fs qHash g).emitted = []) ∧
      ((fs.entries t.m_dir).filter (isImportCandidate g) = [] →
        (t.run fs qHash g).emitted =
          [Signal.directoryHashed t.m_dir true (uintToInt (qHash ""))] ∧
          importTasks (t.run fs qHash g).queued = []) ∧
      ∀ d, Signal.directoryUnchanged d ∉ (t.run fs qHash g).emitted := by
  have h := run_of_hash_differs fs qHash g t hrun (by rw [hno]; exact fun e => hne e.symm)
  rw [hno] at h
  simpa using h

theorem run_without_prior_record_witness :
    exampleGlobal.shouldCancel = false ∧
      exampleGlobal.directoryHashInDatabase exampleRoot.m_dir = -1 ∧
      newHashOf polyHash31 (importablePaths exampleGlobal (exampleFs.entries exampleRoot.m_dir))
        ≠ -1 ∧
      (exampleFs.entries exampleRoot.m_dir).filter (isImportCandidate exampleGlobal) ≠ [] ∧
      importTasks (exampleRoot.run exampleFs polyHash31 exampleGlobal).queued =
        [ScannerTask.importFiles exampleRoot.m_dir
          (newHashOf polyHash31 (importablePaths exampleGlobal (exampleFs.entries exampleRoot.m_dir)))
          false
          ((exampleFs.entries exampleRoot.m_dir).filter (isImportCandidate exampleGlobal))
          ((exampleFs.entries exampleRoot.m_dir).filter (isCoverCandidate exampleGlobal))
          exampleRoot.m_pToken] ∧
      ∀ d, Signal.directoryUnchanged d ∉
        (exampleRoot.run exampleFs polyHash31 exampleGlobal).emitted :=
  ⟨by decide, by decide, by decide, by decide,
    ((run_without_prior_record exampleFs polyHash31 exampleGlobal exampleRoot (by decide)
      (by decide) (by decide)).1 (by decide)).1,
    (run_without_prior_record exampleFs polyHash31 exampleGlobal exampleRoot (by decide)
      (by decide) (by decide)).2.2⟩

/-- C4, at a concrete input: renaming the only track of `/m` from `Aa.mp3` to
`BB.mp3` changes the sequence of importable paths and leaves the fingerprint
(under `polyHash31`) the same, so the run on the new sequence, with the
fingerprint of the old one stored, emits `directoryUnchanged` and queues
nothing. -/
theorem rename_counterexample :
    importablePaths renamedGlobal (renamedFs.entries taskM.m_dir) = ["/m/BB.mp3"] ∧
      ["/m/Aa.mp3"] ≠ ["/m/BB.mp3"] ∧
      newHashOf polyHash31 ["/m/Aa.mp3"] = newHashOf polyHash31 ["/m/BB.mp3"] ∧
      renamedGlobal.directoryHashInDatabase taskM.m_dir = newHashOf polyHash31 ["/m/Aa.mp3"] ∧
      renamedGlobal.shouldCancel = false ∧
      (taskM.run renamedFs polyHash31 renamedGlobal).emitted =
        [Signal.directoryUnchanged "/m"] ∧
      (taskM.run renamedFs polyHash31 renamedGlobal).queued = [] := by
  decide

/-- C4, amended: when the fingerprint stored for the directory was computed
from an old sequence of importable paths and differs from the fingerprint of
the sequence now enumerated, a run that is not cancelled does not emit
`directoryUnchanged`; it queues one import task when the new sequence is not
empty and emits `directoryHashed` when it is empty. -/
theorem run_fingerprint_changed (fs : FileSystem) (qHash : String → Nat) (g : ScannerGlobal)
    (t : RecursiveScanDirectoryTask) (old : List String) (hrun : g.shouldCancel = false)
    (hprev : g.directoryHashInDatabase t.m_dir = newHashOf qHash old)
    (hdiff : newHashOf qHash old ≠ newHashOf qHash (importablePaths g (fs.entries t.m_dir))) :
    (∀ d, Signal.directoryUnchanged d ∉ (t.run fs qHash g).emitted) ∧
      (importablePaths g (fs.entries t.m_dir) ≠ [] →
        importTasks (t.run fs qHash g).queued =
          [ScannerTask.importFiles t.m_dir
            (newHashOf qHash (importablePaths g (fs.entries t.m_dir)))
            (newHashOf qHash old != -1)
            ((fs.entries t.m_dir).filter (isImportCandidate g))
            ((fs.entries t.m_dir).filter (isCoverCandidate g)) t.m_pToken] ∧
          (t.run fs qHash g).emitted = []) ∧
      (importablePaths g (fs.entries t.m_dir) = [] →
        (t.run fs qHash g).emitted =
          [Signal.directoryHashed t.m_dir (!(newHashOf qHash old != -1))
            (uintToInt (qHash ""))] ∧
          importTasks (t.run fs qHash g).queued = []) := by
  have h := run_of_hash_differs fs qHash g t hrun (by rw [hprev]; exact hdiff)
  rw [hprev] at h
  refine ⟨h.2.2, ?_, ?_⟩
  · intro hp
    apply h.1
    intro hf
    exact hp (by simp [importablePaths, hf])
  · intro hp
    apply h.2.1
    simpa [importablePaths] using hp

theorem run_fingerprint_changed_witness :
    exampleSecondPass.shouldCancel = false ∧
      exampleSecondPass.directoryHashInDatabase exampleRoot.m_dir =
        newHashOf polyHash31 ["/music/a.mp3", "/music/b.mp3"] ∧
      newHashOf polyHash31 ["/music/a.mp3", "/music/b.mp3"] ≠
        newHashOf polyHash31
          (importablePaths exampleSecondPass (exampleFsDeleted.entries exampleRoot.m_dir)) ∧
      (∀ d, Signal.directoryUnchanged d ∉
        (exampleRoot.run exampleFsDeleted polyHash31 exampleSecondPass).emitted) ∧
      importTasks (exampleRoot.run exampleFsDeleted polyHash31 exampleSecondPass).queued =
        [ScannerTask.importFiles exampleRoot.m_dir
          (newHashOf polyHash31
            (importablePaths exampleSecondPass (exampleFsDeleted.entries exampleRoot.m_dir)))
          (newHashOf polyHash31 ["/music/a.mp3", "/music/b.mp3"] != -1)
          ((exampleFsDeleted.entries exampleRoot.m_dir).filter
            (isImportCandidate exampleSecondPass))
          ((exampleFsDeleted.entries exampleRoot.m_dir).filter
            (isCoverCandidate exampleSecondPass)) exampleRoot.m_pToken] :=
  ⟨by decide, by decide, by decide,
    (run_fingerprint_changed exampleFsDeleted polyHash31 exampleSecondPass exampleRoot
      ["/music/a.mp3", "/music/b.mp3"] (by decide) (by decide) (by decide)).1,
    ((run_fingerprint_changed exampleFsDeleted polyHash31 exampleSecondPass exampleRoot
      ["/music/a.mp3", "/music/b.mp3"] (by decide) (by decide) (by decide)).2.1
      (by decide)).1⟩

theorem mem_setDirectoryScanned (g : ScannerGlobal) (p c : String) :
    c ∈ (g.setDirectoryScanned p).directoriesScanned ↔ c ∈ g.directoriesScanned ∨ c = p := by
  unfold ScannerGlobal.setDirectoryScanned
  by_cases h : p ∈ g.directoriesScanned
  · simp only [h, if_true]
    constructor
    · exact Or.inl
    · rintro (h' | rfl)
      · exact h'
      · exact h
  · simp [h]

theorem mem_markAll (fs : FileSystem) (dirs : List String) :
    ∀ (g : ScannerGlobal) (c : String),
      c ∈ (markAll fs dirs g).directoriesScanned ↔
        c ∈ g.directoriesScanned ∨ ∃ d, d ∈ dirs ∧ fs.canonicalPath d = c := by
  induction dirs with
  | nil => intro g c; simp [markAll]
  | cons d rest ih =>
    intro g c
    simp only [markAll, ih, mem_setDirectoryScanned, List.mem_cons]
    constructor
    · rintro ((h | h) | ⟨x, hx, hc⟩)
      · exact Or.inl h
      · exact Or.inr ⟨d, Or.inl rfl, h.symm⟩
      · exact Or.inr ⟨x, Or.inr hx, hc⟩
    · rintro (h | ⟨x, rfl | hx, hc⟩)
      · exact Or.inl (Or.inl h)
      · exact Or.inl (Or.inr hc.symm)
      · exact Or.inr ⟨x, hx, hc⟩

theorem markAll_congr (fs fs' : FileSystem) (hcanon : fs'.canonicalPath = fs.canonicalPath)
    (dirs : List String) : ∀ g : ScannerGlobal, markAll fs' dirs g = markAll fs dirs g := by
  induction dirs with
  | nil => intro g; rfl
  | cons d rest ih => intro g; simp [markAll, ih, hcanon]

theorem scanLoop_remove_blacklisted (fs fs' : FileSystem) (g : ScannerGlobal)
    (pre post : List QFileInfo) (e : QFileInfo)
    (hcanon : fs'.canonicalPath = fs.canonicalPath) (hdir : e.isFile = false)
    (hbl : g.directoryBlacklisted e.filePath = true) :
    scanLoop fs g (pre ++ e :: post) = scanLoop fs' g (pre ++ post) := by
  have hchild : isChildDirectory fs' g = isChildDirectory fs g := by
    funext x
    simp [isChildDirectory, hcanon]
  rw [scanLoop_eq, scanLoop_eq, hchild]
  simp [importablePaths, List.filter_cons, isImportCandidate, isCoverCandidate,
    isChildDirectory, hdir, hbl]

/-- C7, at a concrete input: `/m/bl` is blacklisted and resolves to `/t`, which
is not in the visited set before the run and is in it after the run, because the
entry `/m/ok` resolves to `/t` as well. -/
theorem blacklisted_alias_counterexample :
    aliasGlobal.directoryBlacklisted "/m/bl" = true ∧
      { filePath := "/m/bl", fileName := "bl", isFile := false } ∈ aliasFs.entries taskM.m_dir ∧
      aliasFs.canonicalPath "/m/bl" = "/t" ∧
      "/t" ∉ aliasGlobal.directoriesScanned ∧
      "/t" ∈ (taskM.run aliasFs polyHash31 aliasGlobal).scannerGlobal.directoriesScanned := by
  decide

/-- C7, amended: a sub-directory entry for which `directoryBlacklisted` holds
is not among the child scan tasks queued by `run()`; the lists collected by the
loop (fingerprint input, import candidates, cover-art candidates, directories
to scan) and the whole result of the run, visited set included, are the same as
for the enumeration with that entry removed; and its canonical path is not
added to the visited set by the run when no entry selected for scanning
resolves to the same canonical path. -/
theorem run_skips_blacklisted (fs fs' : FileSystem) (qHash : String → Nat) (g : ScannerGlobal)
    (t : RecursiveScanDirectoryTask) (pre post : List QFileInfo) (e : QFileInfo)
    (hentries : fs.entries t.m_dir = pre ++ e :: post)
    (hremoved : fs'.entries t.m_dir = pre ++ post)
    (hcanon : fs'.canonicalPath = fs.canonicalPath)
    (hdir : e.isFile = false)
    (hbl : g.directoryBlacklisted e.filePath = true) :
    (∀ k, ScannerTask.recursiveScanDirectory { m_dir := e.filePath, m_pToken := k } ∉
        (t.run fs qHash g).queued) ∧
      scanLoop fs g (fs.entries t.m_dir) = scanLoop fs' g (fs'.entries t.m_dir) ∧
      newHashOf qHash (scanLoop fs g (fs.entries t.m_dir)).newHashStr =
        newHashOf qHash (scanLoop fs' g (fs'.entries t.m_dir)).newHashStr ∧
      t.run fs qHash g = t.run fs' qHash g ∧
      ((∀ x, x ∈ pre ++ post → isChildDirectory fs g x = true →
          fs.canonicalPath x.filePath ≠ fs.canonicalPath e.filePath) →
        fs.canonicalPath e.filePath ∉ g.directoriesScanned →
        fs.canonicalPath e.filePath ∉ (t.run fs qHash g).scannerGlobal.directoriesScanned) := by
  have hloop : scanLoop fs g (fs.entries t.m_dir) = scanLoop fs' g (fs'.entries t.m_dir) := by
    rw [hentries, hremoved]
    exact scanLoop_remove_blacklisted fs fs' g pre post e hcanon hdir hbl
  have hrunEq : t.run fs qHash g = t.run fs' qHash g := by
    cases hc : g.shouldCancel
    · rw [run_of_not_cancelled fs qHash g t hc, run_of_not_cancelled fs' qHash g t hc, hloop,
        markAll_congr fs fs' hcanon]
    · simp [RecursiveScanDirectoryTask.run, hc]
  refine ⟨?_, hloop, by rw [hloop], hrunEq, ?_⟩
  · intro k hmem
    cases hc : g.shouldCancel
    · rw [run_of_not_cancelled fs qHash g t hc] at hmem
      rcases List.mem_append.mp hmem with h | h
      · unfold compareHashes at h
        by_cases h1 : g.directoryHashInDatabase t.m_dir =
            newHashOf qHash (scanLoop fs g (fs.entries t.m_dir)).newHashStr <;>
          cases h2 : (scanLoop fs g (fs.entries t.m_dir)).filesToImport.isEmpty <;>
          simp [h1, h2] at h
      · rw [scanLoop_eq] at h
        simp only [List.mem_map, List.mem_filter] at h
        obtain ⟨d, ⟨x, ⟨_, hx⟩, rfl⟩, hd⟩ := h
        simp only [ScannerTask.recursiveScanDirectory.injEq,
          RecursiveScanDirectoryTask.mk.injEq] at hd
        simp [isChildDirectory, hd.1, hbl] at hx
    · simp [RecursiveScanDirectoryTask.run, hc] at hmem
  · intro hother hnot hmem
    cases hc : g.shouldCancel
    · rw [run_of_not_cancelled fs qHash g t hc] at hmem
      simp only at hmem
      rcases (mem_markAll fs _ g _).mp hmem with h | ⟨d, hd, hcan⟩
      · exact hnot h
      · rw [scanLoop_eq, hentries] at hd
        simp only [List.mem_map, List.mem_filter, List.mem_append, List.mem_cons] at hd
        obtain ⟨x, ⟨hx, hchild⟩, rfl⟩ := hd
        rcases hx with hx | rfl | hx
        · exact hother x (List.mem_append.mpr (Or.inl hx)) hchild hcan
        · simp [isChildDirectory, hbl] at hchild
        · exact hother x (List.mem_append.mpr (Or.inr hx)) hchild hcan
    · simp [RecursiveScanDirectoryTask.run, hc] at hmem
      exact hnot hmem

theorem run_skips_blacklisted_witness :
    exampleFs.entries exampleRoot.m_dir = entriesBeforeSkip ++ skipEntry :: entriesAfterSkip ∧
      exampleFsNoSkip.entries exampleRoot.m_dir = entriesBeforeSkip ++ entriesAfterSkip ∧
      skipEntry.isFile = false ∧
      exampleGlobal.directoryBlacklisted skipEntry.filePath = true ∧
      (∀ k, ScannerTask.recursiveScanDirectory { m_dir := skipEntry.filePath, m_pToken := k } ∉
        (exampleRoot.run exampleFs polyHash31 exampleGlobal).queued) ∧
      scanLoop exampleFs exampleGlobal (exampleFs.entries exampleRoot.m_dir) =
        scanLoop exampleFsNoSkip exampleGlobal (exampleFsNoSkip.entries exampleRoot.m_dir) ∧
      exampleRoot.run exampleFs polyHash31 exampleGlobal =
        exampleRoot.run exampleFsNoSkip polyHash31 exampleGlobal ∧
      exampleFs.canonicalPath skipEntry.filePath ∉
        (exampleRoot.run exampleFs polyHash31 exampleGlobal).scannerGlobal.directoriesScanned :=
  ⟨by decide, by decide, by decide, by decide,
    (run_skips_blacklisted exampleFs exampleFsNoSkip polyHash31 exampleGlobal exampleRoot
      entriesBeforeSkip entriesAfterSkip skipEntry (by decide) (by decide) rfl (by decide)
      (by decide)).1,
    (run_skips_blacklisted exampleFs exampleFsNoSkip polyHash31 exampleGlobal exampleRoot
      entriesBeforeSkip entriesAfterSkip skipEntry (by decide) (by decide) rfl (by decide)
      (by decide)).2.1,
    (run_skips_blacklisted exampleFs exampleFsNoSkip polyHash31 exampleGlobal exampleRoot
      entriesBeforeSkip entriesAfterSkip skipEntry (by decide) (by decide) rfl (by decide)
      (by decide)).2.2.2.1,
    (run_skips_blacklisted exampleFs exampleFsNoSkip polyHash31 exampleGlobal exampleRoot
      entriesBeforeSkip entriesAfterSkip skipEntry (by decide) (by decide) rfl (by decide)
      (by decide)).2.2.2.2 (by decide) (by decide)⟩

/-! ### Termination of the scan session -/

theorem queueWeight_append (a b : List ScannerTask) :
    queueWeight (a ++ b) = queueWeight a + queueWeight b := by
  induction a with
  | nil => simp [queueWeight]
  | cons x rest ih => cases x <;> simp [queueWeight, ih] <;> omega

theorem queueWeight_map (k : SecurityTokenPointer) (dirs : List String) :
    queueWeight (dirs.map
      (fun d => ScannerTask.recursiveScanDirectory { m_dir := d, m_pToken := k })) =
      2 * dirs.length := by
  induction dirs with
  | nil => rfl
  | cons d rest ih => simp [queueWeight, ih]; omega

theorem queueWeight_compareHashes (d : String) (prev new : Int) (lists : ScanLists)
    (k : SecurityTokenPointer) : queueWeight (compareHashes d prev new lists k).1 ≤ 1 := by
  unfold compareHashes
  by_cases h1 : prev = new <;> cases h2 : lists.filesToImport.isEmpty <;>
    simp [h1, h2, queueWeight]

theorem unvisitedCount_le_length (univ : List String) (g : ScannerGlobal) :
    unvisitedCount univ g ≤ univ.length := by
  induction univ with
  | nil => simp [unvisitedCount]
  | cons c rest ih =>
    simp only [unvisitedCount, List.length_cons]
    split <;> omega

theorem unvisitedCount_mono (univ : List String) (g g' : ScannerGlobal)
    (hsub : ∀ c, c ∈ g.directoriesScanned → c ∈ g'.directoriesScanned) :
    unvisitedCount univ g' ≤ unvisitedCount univ g := by
  induction univ with
  | nil => simp [unvisitedCount]
  | cons c rest ih =>
    simp only [unvisitedCount, ScannerGlobal.isDirectoryScanned, decide_eq_true_eq]
    by_cases h : c ∈ g.directoriesScanned
    · simp only [h, hsub c h, if_true]
      omega
    · by_cases h' : c ∈ g'.directoriesScanned
      · simp only [h, h', if_true, if_false]
        omega
      · simp only [h, h', if_false]
        omega

theorem unvisitedCount_lt (univ : List String) (g g' : ScannerGlobal)
    (hsub : ∀ c, c ∈ g.directoriesScanned → c ∈ g'.directoriesScanned)
    (c₀ : String) (hmem : c₀ ∈ univ) (hold : c₀ ∉ g.directoriesScanned)
    (hnew : c₀ ∈ g'.directoriesScanned) :
    unvisitedCount univ g' < unvisitedCount univ g := by
  induction univ with
  | nil => simp at hmem
  | cons c rest ih =>
    simp only [unvisitedCount, ScannerGlobal.isDirectoryScanned, decide_eq_true_eq]
    rcases List.mem_cons.mp hmem with rfl | hrest
    · have := unvisitedCount_mono rest g g' hsub
      simp only [hold, hnew, if_true, if_false]
      omega
    · have := ih hrest
      by_cases h : c ∈ g.directoriesScanned
      · simp only [h, hsub c h, if_true]
        omega
      · by_cases h' : c ∈ g'.directoriesScanned
        · simp only [h, h', if_true, if_false]
          omega
        · simp only [h, h', if_false]
          omega

theorem dirsToScan_length_le (fs : FileSystem) (g : ScannerGlobal) (entries : List QFileInfo) :
    (scanLoop fs g entries).dirsToScan.length ≤ entries.length := by
  rw [scanLoop_eq]
  simp only [List.length_map]
  exact List.length_filter_le _ _

theorem dirsToScan_mem (fs : FileSystem) (g : ScannerGlobal) (entries : List QFileInfo)
    (d : String) (hd : d ∈ (scanLoop fs g entries).dirsToScan) :
    ∃ e, e ∈ entries ∧ e.isFile = false ∧ e.filePath = d ∧
      fs.canonicalPath d ∉ g.directoriesScanned := by
  rw [scanLoop_eq] at hd
  simp only [List.mem_map, List.mem_filter] at hd
  obtain ⟨e, ⟨he, hchild⟩, rfl⟩ := hd
  simp [isChildDirectory, ScannerGlobal.isDirectoryScanned] at hchild
  exact ⟨e, he, hchild.1, rfl, hchild.2.2⟩

/-- One execution of a scan task, measured: the queue weight it adds and the
tasks it creates are paid for by the canonical paths it claims. -/
theorem run_measure (fs : FileSystem) (qHash : String → Nat) (univ : List String) (B : Nat)
    (huniv : ∀ p e, e ∈ fs.entries p → e.isFile = false → fs.canonicalPath e.filePath ∈ univ)
    (hB : ∀ p, (fs.entries p).length ≤ B)
    (g : ScannerGlobal) (t : RecursiveScanDirectoryTask) :
    unvisitedCount univ (t.run fs qHash g).scannerGlobal * (2 * B + 2) +
        queueWeight (t.run fs qHash g).queued <
        unvisitedCount univ g * (2 * B + 2) + 2 ∧
      (childTasks (t.run fs qHash g).queued).length +
        unvisitedCount univ (t.run fs qHash g).scannerGlobal * B ≤
        unvisitedCount univ g * B := by
  cases hc : g.shouldCancel
  · rw [run_of_not_cancelled fs qHash g t hc]
    simp only [queueWeight_append, queueWeight_map, childTasks_append, compareHashes_children,
      childTasks_map, List.nil_append, List.length_map]
    have hw := queueWeight_compareHashes t.m_dir (g.directoryHashInDatabase t.m_dir)
      (newHashOf qHash (scanLoop fs g (fs.entries t.m_dir)).newHashStr)
      (scanLoop fs g (fs.entries t.m_dir)) t.m_pToken
    have hlen : (scanLoop fs g (fs.entries t.m_dir)).dirsToScan.length ≤ B :=
      le_trans (dirsToScan_length_le fs g _) (hB t.m_dir)
    have hsub : ∀ c, c ∈ g.directoriesScanned →
        c ∈ (markAll fs (scanLoop fs g (fs.entries t.m_dir)).dirsToScan g).directoriesScanned :=
      fun c h => (mem_markAll fs _ g c).mpr (Or.inl h)
    cases hdirs : (scanLoop fs g (fs.entries t.m_dir)).dirsToScan with
    | nil =>
      simp only [markAll, List.length_nil]
      omega
    | cons d rest =>
      have hdmem : d ∈ (scanLoop fs g (fs.entries t.m_dir)).dirsToScan := by
        rw [hdirs]; exact List.mem_cons_self _ _
      obtain ⟨e, he, hfile, hpath, hnot⟩ := dirsToScan_mem fs g _ d hdmem
      have hin : fs.canonicalPath d ∈ univ := hpath ▸ huniv t.m_dir e he hfile
      have hnew : fs.canonicalPath d ∈
          (markAll fs (scanLoop fs g (fs.entries t.m_dir)).dirsToScan g).directoriesScanned :=
        (mem_markAll fs _ g _).mpr (Or.inr ⟨d, hdmem, rfl⟩)
      have hlt := unvisitedCount_lt univ g _ hsub (fs.canonicalPath d) hin hnot hnew
      rw [hdirs] at hlt hlen
      have h1 : (unvisitedCount univ (markAll fs (d :: rest) g) + 1) * (2 * B + 2) ≤
          unvisitedCount univ g * (2 * B + 2) := Nat.mul_le_mul_right _ hlt
      have h2 : (unvisitedCount univ (markAll fs (d :: rest) g) + 1) * B ≤
          unvisitedCount univ g * B := Nat.mul_le_mul_right _ hlt
      rw [Nat.add_mul] at h1 h2
      constructor <;> omega
  · simp [RecursiveScanDirectoryTask.run, hc, queueWeight, childTasks]

theorem step_measure (fs : FileSystem) (qHash : String → Nat) (univ : List String) (B : Nat)
    (huniv : ∀ p e, e ∈ fs.entries p → e.isFile = false → fs.canonicalPath e.filePath ∈ univ)
    (hB : ∀ p, (fs.entries p).length ≤ B)
    (s : ScanSession) (hq : s.queue.isEmpty = false) :
    potential univ B (s.step fs qHash) < potential univ B s ∧
      (s.step fs qHash).created + unvisitedCount univ (s.step fs qHash).scannerGlobal * B ≤
        s.created + unvisitedCount univ s.scannerGlobal * B := by
  cases hqueue : s.queue with
  | nil => simp [hqueue] at hq
  | cons x rest =>
    cases x with
    | importFiles d nh pe f c k =>
      simp only [ScanSession.step, hqueue, potential, queueWeight]
      constructor <;> omega
    | recursiveScanDirectory t =>
      have hm := run_measure fs qHash univ B huniv hB s.scannerGlobal t
      simp only [ScanSession.step, hqueue, potential, queueWeight, queueWeight_append]
      constructor <;> omega

theorem runAll_of_potential (fs : FileSystem) (qHash : String → Nat) (univ : List String)
    (B : Nat)
    (huniv : ∀ p e, e ∈ fs.entries p → e.isFile = false → fs.canonicalPath e.filePath ∈ univ)
    (hB : ∀ p, (fs.entries p).length ≤ B) :
    ∀ (fuel : Nat) (s : ScanSession), potential univ B s ≤ fuel →
      ∃ final, ScanSession.runAll fs qHash fuel s = some final ∧ final.queue = [] ∧
        final.created + unvisitedCount univ final.scannerGlobal * B ≤
          s.created + unvisitedCount univ s.scannerGlobal * B := by
  intro fuel
  induction fuel with
  | zero =>
    intro s hs
    have hq : s.queue = [] := by
      cases hqueue : s.queue with
      | nil => rfl
      | cons x rest =>
        cases x <;> simp [potential, hqueue, queueWeight] at hs
    exact ⟨s, by simp [ScanSession.runAll, hq], hq, le_refl _⟩
  | succ n ih =>
    intro s hs
    cases hq : s.queue.isEmpty
    · obtain ⟨hlt, hcr⟩ := step_measure fs qHash univ B huniv hB s hq
      obtain ⟨final, hrun, hempty, hle⟩ := ih (s.step fs qHash) (by omega)
      exact ⟨final, by simp [ScanSession.runAll, hq, hrun], hempty, le_trans hle hcr⟩
    · exact ⟨s, by simp [ScanSession.runAll, hq], by simpa using hq, le_refl _⟩

/-- C2: on a finite directory graph (every sub-directory entry resolves into
the finite list `univ` of canonical paths, a directory has at most `B`
entries; entries may resolve to any directory, ancestors included), executing
the queued tasks one at a time from the root task terminates: with fuel
`univ.length * (2 * B + 2) + 2` or more the session ends with an empty queue,
and at most `1 + univ.length * B` scan tasks were ever created. -/
theorem scan_terminates (fs : FileSystem) (qHash : String → Nat) (g : ScannerGlobal)
    (root : String) (pToken : SecurityTokenPointer) (univ : List String) (B : Nat)
    (huniv : ∀ p e, e ∈ fs.entries p → e.isFile = false → fs.canonicalPath e.filePath ∈ univ)
    (hB : ∀ p, (fs.entries p).length ≤ B)
    (fuel : Nat) (hfuel : univ.length * (2 * B + 2) + 2 ≤ fuel) :
    ∃ final, ScanSession.runAll fs qHash fuel (ScanSession.start fs g root pToken) = some final ∧
      final.queue = [] ∧ final.created ≤ 1 + univ.length * B := by
  have hU := unvisitedCount_le_length univ (ScanSession.start fs g root pToken).scannerGlobal
  have hpot : potential univ B (ScanSession.start fs g root pToken) ≤ fuel := by
    have h1 := Nat.mul_le_mul_right (2 * B + 2) hU
    have h2 : queueWeight (ScanSession.start fs g root pToken).queue = 2 := rfl
    unfold potential
    omega
  obtain ⟨final, hrun, hempty, hle⟩ :=
    runAll_of_potential fs qHash univ B huniv hB fuel _ hpot
  refine ⟨final, hrun, hempty, ?_⟩
  have h3 := Nat.mul_le_mul_right B hU
  have h4 : (ScanSession.start fs g root pToken).created = 1 := rfl
  omega

theorem scan_terminates_witness :
    (∀ p e, e ∈ exampleFs.entries p → e.isFile = false →
        exampleFs.canonicalPath e.filePath ∈ ["/music", "/music/covers", "/music/skip"]) ∧
      (∀ p, (exampleFs.entries p).length ≤ 7) ∧
      ["/music", "/music/covers", "/music/skip"].length * (2 * 7 + 2) + 2 ≤ 50 ∧
      ∃ final, ScanSession.runAll exampleFs polyHash31 50
          (ScanSession.start exampleFs exampleFresh "/music" 7) = some final ∧
        final.queue = [] ∧
        final.created ≤ 1 + ["/music", "/music/covers", "/music/skip"].length * 7 :=
  have huniv : ∀ p e, e ∈ exampleFs.entries p → e.isFile = false →
      exampleFs.canonicalPath e.filePath ∈ ["/music", "/music/covers", "/music/skip"] := by
    intro p e he hf
    unfold exampleFs at he ⊢
    simp only at he ⊢
    split_ifs at he
    · simp only [List.mem_cons, List.mem_singleton, List.not_mem_nil, or_false] at he
      rcases he with rfl | rfl | rfl | rfl | rfl | rfl | rfl <;>
        first | (simp at hf; done) | decide
    · simp only [List.mem_cons, List.mem_singleton, List.not_mem_nil, or_false] at he
      subst he
      simp at hf
    · simp at he
  have hB : ∀ p, (exampleFs.entries p).length ≤ 7 := by
    intro p
    unfold exampleFs
    simp only
    split_ifs <;> simp
  ⟨huniv, hB, by decide,
    scan_terminates exampleFs polyHash31 exampleFresh "/music" 7
      ["/music", "/music/covers", "/music/skip"] 7 huniv hB 50 (by decide)⟩

/-- C1, evaluated: `/m` holds the entries `l1` and `l2`, both resolving to the
directory `/t` that is not yet in the visited set.  One run on `/m` queues two
child scan tasks whose canonical paths are equal, and in the session both of
them run: the directory `/t` is enumerated and reported twice, once as `/m/l1`
and once as `/m/l2`. -/
theorem two_links_scanned_twice :
    "/t" ∉ sentinelGlobal.directoriesScanned ∧
      childTasks (taskM.run twoLinksFs polyHash31 sentinelGlobal).queued =
        [{ m_dir := "/m/l1", m_pToken := 7 }, { m_dir := "/m/l2", m_pToken := 7 }] ∧
      (childTasks (taskM.run twoLinksFs polyHash31 sentinelGlobal).queued).map
        (fun c => twoLinksFs.canonicalPath c.m_dir) = ["/t", "/t"] ∧
      (ScanSession.runAll twoLinksFs polyHash31 50
          (ScanSession.start twoLinksFs sentinelFresh "/m" 7)).map
        (fun s => (s.emitted, s.created)) =
        some ([Signal.directoryHashed "/m" true 0, Signal.directoryHashed "/m/l1" true 0,
          Signal.directoryHashed "/m/l2" true 0], 3) := by
  decide

/-- C10, evaluated: the scan of `/m` in `sentinelFs`, with a record stored, queues
a task for the files of `/m` that carries the new fingerprint `-1` and the flag
`true`.  At the next scan the record of `/m` holds that fingerprint, a track has
been added, and the task queued for the files of `/m` carries the flag `false`
although a prior record exists. -/
theorem stored_record_flag_false :
    importTasks (taskM.run sentinelFs polyHash31 sentinelStored).queued =
        [ScannerTask.importFiles "/m" (-1) true
          [{ filePath := "/m/aizvkicm.mp3", fileName := "aizvkicm.mp3", isFile := true }] [] 7] ∧
      sentinelLater.directoryHashInDatabase "/m" =
        newHashOf polyHash31 (importablePaths sentinelStored (sentinelFs.entries "/m")) ∧
      importTasks (taskM.run sentinelLaterFs polyHash31 sentinelLater).queued =
        [ScannerTask.importFiles "/m"
          (newHashOf polyHash31 ["/m/aizvkicm.mp3", "/m/b.mp3"]) false
          [{ filePath := "/m/aizvkicm.mp3", fileName := "aizvkicm.mp3", isFile := true },
           { filePath := "/m/b.mp3", fileName := "b.mp3", isFile := true }] [] 7] := by
  decide

end Mixxx
